import Mathlib

/-!
# CodeTracker (C0deTracker) — verification of the specified core

Shallow embedding of the tracker-music engine declared in
src/code_tracker.hpp.  The repository ships only the header: every method
body (Track::play, Channel dispatch, PSG::handleAmpEnvelope,
Notes::pitch2freq, Track::Track, Channel::Channel) is absent from the
sources, so behavioural definitions below are modelled from the
specification's own description of those functions, while the data that
*is* in the header (the KeysUtilities enumeration, field names and types,
the step formula) is embedded directly from the source.

Machine integers are modelled as Nat with explicit reduction modulo 2^w
where overflow matters; float/double quantities are modelled as exact
rationals (ℚ), except the frequency formula which needs a real-valued
power and is modelled over ℝ.
-/

namespace CodeTracker

/-! ## The KeysUtilities enumeration (embedded from the source header)

The C++ source declares
enum KeysUtilities{C, C_S, D, D_S, E, F, F_S, G, G_S, A, A_S, B,
  PITCHES_PER_OCTAVE, OCTAVE_PITCH_OFFSET = 4, NOTE_PITCH_OFFSET = A,
  RELEASE = 244, CONTINUE};
An enumerator with no initializer has the value of the previous
enumerator plus one; the definitions below spell that rule out. -/

namespace Notes

def C : ℕ := 0

def C_S : ℕ := C + 1

def D : ℕ := C_S + 1

def D_S : ℕ := D + 1

def E : ℕ := D_S + 1

def F : ℕ := E + 1

def F_S : ℕ := F + 1

def G : ℕ := F_S + 1

def G_S : ℕ := G + 1

def A : ℕ := G_S + 1

def A_S : ℕ := A + 1

def B : ℕ := A_S + 1

def PITCHES_PER_OCTAVE : ℕ := B + 1

def OCTAVE_PITCH_OFFSET : ℕ := 4

def NOTE_PITCH_OFFSET : ℕ := A

def RELEASE : ℕ := 244

def CONTINUE : ℕ := RELEASE + 1

/-- Modelled from the spec: Notes::key2pitch (only declared in the
header).  The spec gives
  key2pitch(key) = (octave - 4) * 12 + (note - A)
with A the reference note (semitone 9); the offsets 4 and 9 and the
factor 12 are the enumerators OCTAVE_PITCH_OFFSET, NOTE_PITCH_OFFSET and
PITCHES_PER_OCTAVE of the source enumeration. -/
def key2pitch (note octave : ℚ) : ℚ :=
  (octave - (OCTAVE_PITCH_OFFSET : ℚ)) * (PITCHES_PER_OCTAVE : ℚ)
    + (note - (NOTE_PITCH_OFFSET : ℚ))

/-- Modelled from the spec: Notes::pitch2freq (only declared in the
header).  The spec gives pitch2freq(p) = 440 * 2^(p/12); the float
computation is modelled over the reals. -/
noncomputable def pitch2freq (p : ℚ) : ℝ :=
  440 * (2 : ℝ) ^ ((p : ℝ) / 12)

/-- Modelled from the spec: Notes::key2freq composes the two. -/
noncomputable def key2freq (note octave : ℚ) : ℝ :=
  pitch2freq (key2pitch note octave)

end Notes

/-! ## ADSR amplitude envelope (PSG)

The header declares ADSR and PSG::handleAmpEnvelope together with the
fields release and current_envelope_amplitude; the body is absent from
the sources, so the envelope is modelled from the spec (float values as
exact rationals). -/

/-- ADSR structure from the source: attack, decay, sustain, release. -/
structure ADSR where
  attack : ℚ
  decay : ℚ
  sustain : ℚ
  release : ℚ
deriving DecidableEq

/-- Modelled from the spec: the pre-release branch of
PSG::handleAmpEnvelope (body absent from src).  With t the time elapsed
since note-on, the amplitude ramps 0 → 1 over the attack duration, then
1 → sustain over the decay duration, then holds at the sustain level. -/
def envBefore (e : ADSR) (t : ℚ) : ℚ :=
  if t < e.attack then t / e.attack
  else if t < e.attack + e.decay then
    1 - (t - e.attack) * (1 - e.sustain) / e.decay
  else e.sustain

/-- Modelled from the spec: the field PSG::current_envelope_amplitude —
the amplitude value present at the instant rt the release is triggered
is captured and becomes the start of the release ramp. -/
def current_envelope_amplitude (e : ADSR) (rt : ℚ) : ℚ :=
  envBefore e rt

/-- Modelled from the spec: the release branch of
PSG::handleAmpEnvelope (body absent from src).  From the release time rt
the captured amplitude ramps linearly down to 0 over the release
duration, measured from rt; afterwards the output is exactly 0. -/
def envAfterRelease (e : ADSR) (rt t : ℚ) : ℚ :=
  if t - rt < e.release then
    current_envelope_amplitude e rt * (1 - (t - rt) / e.release)
  else 0

/-- Modelled from the spec: PSG::handleAmpEnvelope dispatching on the
release flag of the oscillator. -/
def handleAmpEnvelope (e : ADSR) (released : Bool) (t rt : ℚ) : ℚ :=
  if released then envAfterRelease e rt t else envBefore e t

/-- The pre-release envelope stays within [0, 1] for well-formed ADSR
parameters. -/
theorem envBefore_mem_Icc (e : ADSR) (t : ℚ)
    (hA : 0 < e.attack) (hS0 : 0 ≤ e.sustain) (hS1 : e.sustain ≤ 1)
    (ht : 0 ≤ t) : 0 ≤ envBefore e t ∧ envBefore e t ≤ 1 := by
  unfold envBefore
  split_ifs with h1 h2
  · constructor
    · positivity
    · rw [div_le_one hA]
      linarith
  · have hd : 0 < e.decay := by
      by_contra hd
      push_neg at hd
      linarith
    have hnum0 : 0 ≤ (t - e.attack) * (1 - e.sustain) := by
      apply mul_nonneg <;> linarith
    constructor
    · have hle : (t - e.attack) * (1 - e.sustain) ≤ e.decay * (1 - e.sustain) := by
        apply mul_le_mul_of_nonneg_right _ (by linarith)
        linarith
      have : (t - e.attack) * (1 - e.sustain) / e.decay ≤ 1 - e.sustain := by
        rw [div_le_iff₀ hd]
        calc (t - e.attack) * (1 - e.sustain) ≤ e.decay * (1 - e.sustain) := hle
        _ = (1 - e.sustain) * e.decay := by ring
      linarith
    · have : 0 ≤ (t - e.attack) * (1 - e.sustain) / e.decay := by positivity
      linarith
  · exact ⟨hS0, hS1⟩

end CodeTracker
namespace CodeTracker

/-! ## Track sequencer cursor

The header declares the private sequencer state of Track:
  float clk, basetime, speed, step;
  uint_fast8_t row_counter = 0, frame_counter = 0;
  double time_advance = 0.0;
  bool branch = false; uint_fast8_t frametojump = 0, rowtojump = 0;
  bool stop = false;
The body of Track::play is absent from the sources, so the cursor
advance is modelled from the spec: time_advance is the wall time at
which the current row began; when the supplied time t reaches
time_advance + step the cursor advances one row (or jumps to a pending
branch target), and a single call processes every crossed row boundary
in a loop.  Times are exact rationals. -/

/-- Track song configuration relevant to the cursor (from the source
constructor parameters). -/
structure TrackCfg where
  clk : ℚ
  basetime : ℚ
  speed : ℚ
  rows : ℕ
  frames : ℕ
deriving DecidableEq

/-- The duration of one row, from the source formula
step = speed * basetime / clk. -/
def TrackCfg.step (c : TrackCfg) : ℚ :=
  c.speed * c.basetime / c.clk

/-- Mutable sequencer cursor state of Track (fields and default values
from the source header). -/
structure TrackState where
  row_counter : ℕ := 0
  frame_counter : ℕ := 0
  time_advance : ℚ := 0
  branch : Bool := false
  frametojump : ℕ := 0
  rowtojump : ℕ := 0
  stop : Bool := false
deriving DecidableEq

/-- Modelled from the spec: one row-boundary crossing of the Track
cursor inside Track::play (body absent from src).  If a stop effect
fired the cursor is frozen; if a branch target is pending the cursor
jumps there and the pending flag clears; otherwise the row increments,
wrapping into the next frame (mod frames) when it reaches the row
count.  In every non-frozen case the start time of the current row
advances by one step. -/
def stepOnce (cfg : TrackCfg) (s : TrackState) : TrackState :=
  if s.stop then s
  else if s.branch then
    { s with time_advance := s.time_advance + cfg.step
             row_counter := s.rowtojump
             frame_counter := s.frametojump
             branch := false }
  else if s.row_counter + 1 = cfg.rows then
    { s with time_advance := s.time_advance + cfg.step
             row_counter := 0
             frame_counter := (s.frame_counter + 1) % cfg.frames }
  else
    { s with time_advance := s.time_advance + cfg.step
             row_counter := s.row_counter + 1 }

/-- Number of row boundaries crossed by a call at time t: the largest k
with time_advance + k * step ≤ t (0 when frozen by a stop effect). -/
def crossings (cfg : TrackCfg) (s : TrackState) (t : ℚ) : ℕ :=
  if s.stop then 0 else (⌊(t - s.time_advance) / cfg.step⌋).toNat

/-- Advance the cursor across k row boundaries, recording the
(frame, row) position dispatched at each boundary. -/
def advanceN (cfg : TrackCfg) : ℕ → TrackState → TrackState × List (ℕ × ℕ)
  | 0, s => (s, [])
  | k + 1, s =>
    let s1 := stepOnce cfg s
    let r := advanceN cfg k s1
    (r.1, (s1.frame_counter, s1.row_counter) :: r.2)

/-- Modelled from the spec: the sequencer-cursor part of Track::play
(body absent from src).  A call at time t processes every crossed row
boundary in a loop and returns the new cursor state together with the
list of (frame, row) positions whose instructions were dispatched
during the call. -/
def play (cfg : TrackCfg) (s : TrackState) (t : ℚ) :
    TrackState × List (ℕ × ℕ) :=
  advanceN cfg (crossings cfg s t) s

/-- Driving Track::play through a sequence of call times, concatenating
the dispatched positions. -/
def runCalls (cfg : TrackCfg) : TrackState → List ℚ → TrackState × List (ℕ × ℕ)
  | s, [] => (s, [])
  | s, t :: ts =>
    let r := play cfg s t
    let r2 := runCalls cfg r.1 ts
    (r2.1, r.2 ++ r2.2)

theorem stepOnce_stop (cfg : TrackCfg) (s : TrackState) :
    (stepOnce cfg s).stop = s.stop := by
  unfold stepOnce
  split_ifs <;> rfl

theorem stepOnce_time_advance (cfg : TrackCfg) (s : TrackState)
    (h : s.stop = false) :
    (stepOnce cfg s).time_advance = s.time_advance + cfg.step := by
  unfold stepOnce
  rw [h]
  simp only [Bool.false_eq_true, if_false]
  split_ifs <;> rfl

theorem stepOnce_branch_false (cfg : TrackCfg) (s : TrackState)
    (h : s.branch = false) : (stepOnce cfg s).branch = false := by
  unfold stepOnce
  rw [h]
  split_ifs <;> first | rfl | exact h

theorem advanceN_stop (cfg : TrackCfg) (k : ℕ) (s : TrackState) :
    ((advanceN cfg k s).1).stop = s.stop := by
  induction k generalizing s with
  | zero => rfl
  | succ n ih => rw [advanceN, ih, stepOnce_stop]

theorem advanceN_time_advance (cfg : TrackCfg) (k : ℕ) (s : TrackState)
    (h : s.stop = false) :
    ((advanceN cfg k s).1).time_advance = s.time_advance + k * cfg.step := by
  induction k generalizing s with
  | zero => simp [advanceN]
  | succ n ih =>
    rw [advanceN]
    have h1 : (stepOnce cfg s).stop = false := by rw [stepOnce_stop, h]
    have := ih (stepOnce cfg s) h1
    rw [this, stepOnce_time_advance cfg s h]
    push_cast
    ring

theorem advanceN_add (cfg : TrackCfg) (k1 k2 : ℕ) (s : TrackState) :
    advanceN cfg (k1 + k2) s
      = ((advanceN cfg k2 (advanceN cfg k1 s).1).1,
         (advanceN cfg k1 s).2 ++ (advanceN cfg k2 (advanceN cfg k1 s).1).2) := by
  induction k1 generalizing s with
  | zero => simp [advanceN]
  | succ n ih =>
    have hshift : n + 1 + k2 = (n + k2) + 1 := by omega
    rw [hshift, advanceN, advanceN, ih (stepOnce cfg s)]
    simp [advanceN]

theorem advanceN_length (cfg : TrackCfg) (k : ℕ) (s : TrackState) :
    (advanceN cfg k s).2.length = k := by
  induction k generalizing s with
  | zero => rfl
  | succ n ih => rw [advanceN]; simp [ih]

/-- Composition of cursor advances: a call at t1 followed by a call at
t2 ≥ t1 lands on the same state as a single call at t2, and the two
dispatch logs concatenate to the single call's log. -/
theorem play_comp (cfg : TrackCfg) (s : TrackState) (t1 t2 : ℚ)
    (hstep : 0 < cfg.step) (hstop : s.stop = false) (h12 : t1 ≤ t2) :
    (play cfg (play cfg s t1).1 t2).1 = (play cfg s t2).1 ∧
    (play cfg s t1).2 ++ (play cfg (play cfg s t1).1 t2).2
      = (play cfg s t2).2 := by
  have hstep' : cfg.step ≠ 0 := ne_of_gt hstep
  set k1 := crossings cfg s t1 with hk1
  have hs1stop : ((advanceN cfg k1 s).1).stop = false := by
    rw [advanceN_stop]; exact hstop
  have hta : ((advanceN cfg k1 s).1).time_advance
      = s.time_advance + k1 * cfg.step := advanceN_time_advance cfg k1 s hstop
  -- the second call's crossing count
  have hcross2 : crossings cfg (advanceN cfg k1 s).1 t2
      = (⌊(t2 - s.time_advance) / cfg.step⌋ - (k1 : ℤ)).toNat := by
    unfold crossings
    rw [if_neg (by rw [hs1stop]; exact Bool.false_ne_true), hta]
    have harg : (t2 - (s.time_advance + k1 * cfg.step)) / cfg.step
        = (t2 - s.time_advance) / cfg.step - (k1 : ℚ) := by
      rw [show t2 - (s.time_advance + (k1 : ℚ) * cfg.step)
            = (t2 - s.time_advance) - (k1 : ℚ) * cfg.step by ring,
          sub_div, mul_div_assoc, div_self hstep', mul_one]
    rw [harg]
    rw [show ((k1 : ℚ)) = (((k1 : ℤ) : ℚ)) by push_cast; ring,
      Int.floor_sub_int]
  have hmono : ⌊(t1 - s.time_advance) / cfg.step⌋
      ≤ ⌊(t2 - s.time_advance) / cfg.step⌋ := by
    apply Int.floor_le_floor
    rw [div_le_div_iff_of_pos_right hstep]
    linarith
  have hk1val : k1 = (⌊(t1 - s.time_advance) / cfg.step⌋).toNat := by
    rw [hk1]; unfold crossings; rw [if_neg (by rw [hstop]; exact Bool.false_ne_true)]
  have hsum : k1 + crossings cfg (advanceN cfg k1 s).1 t2
      = crossings cfg s t2 := by
    rw [hcross2]
    unfold crossings
    rw [if_neg (by rw [hstop]; exact Bool.false_ne_true)]
    omega
  constructor
  · show (advanceN cfg _ (advanceN cfg k1 s).1).1 = (advanceN cfg (crossings cfg s t2) s).1
    rw [← hsum, advanceN_add]
    rfl
  · show (advanceN cfg k1 s).2 ++ (advanceN cfg _ (advanceN cfg k1 s).1).2
        = (advanceN cfg (crossings cfg s t2) s).2
    rw [← hsum, advanceN_add]
    rfl

theorem play_stop (cfg : TrackCfg) (s : TrackState) (t : ℚ) :
    ((play cfg s t).1).stop = s.stop :=
  advanceN_stop cfg _ s

theorem advanceN_branch_false (cfg : TrackCfg) (k : ℕ) (s : TrackState)
    (h : s.branch = false) : ((advanceN cfg k s).1).branch = false := by
  induction k generalizing s with
  | zero => exact h
  | succ n ih => rw [advanceN]; exact ih _ (stepOnce_branch_false cfg s h)

theorem play_branch_false (cfg : TrackCfg) (s : TrackState) (t : ℚ)
    (h : s.branch = false) : ((play cfg s t).1).branch = false :=
  advanceN_branch_false cfg _ s h

/-- One boundary is crossed exactly when t lies in
[time_advance + step, time_advance + 2 * step). -/
theorem crossings_eq_one (cfg : TrackCfg) (s : TrackState) (t : ℚ)
    (hstep : 0 < cfg.step) (hstop : s.stop = false)
    (h1 : s.time_advance + cfg.step ≤ t)
    (h2 : t < s.time_advance + 2 * cfg.step) :
    crossings cfg s t = 1 := by
  unfold crossings
  rw [if_neg (by rw [hstop]; exact Bool.false_ne_true)]
  have hfloor : ⌊(t - s.time_advance) / cfg.step⌋ = 1 := by
    rw [Int.floor_eq_iff]
    constructor
    · rw [le_div_iff₀ hstep]
      push_cast
      linarith
    · rw [div_lt_iff₀ hstep]
      push_cast
      linarith
  rw [hfloor]
  rfl

/-- The cursor range invariant is preserved by one boundary crossing
provided a pending branch target (if any) is in range. -/
theorem stepOnce_range (cfg : TrackCfg) (s : TrackState)
    (hrow : s.row_counter < cfg.rows) (hframe : s.frame_counter < cfg.frames)
    (hjump : s.branch = true → s.rowtojump < cfg.rows ∧ s.frametojump < cfg.frames) :
    (stepOnce cfg s).row_counter < cfg.rows ∧
    (stepOnce cfg s).frame_counter < cfg.frames ∧
    ((stepOnce cfg s).branch = true →
      (stepOnce cfg s).rowtojump < cfg.rows ∧
      (stepOnce cfg s).frametojump < cfg.frames) := by
  unfold stepOnce
  split_ifs with h0 hbr hwrap
  · exact ⟨hrow, hframe, hjump⟩
  · have h := hjump hbr
    exact ⟨h.1, h.2, fun hc => nomatch hc⟩
  · exact ⟨lt_of_le_of_lt (Nat.zero_le _) hrow,
      Nat.mod_lt _ (lt_of_le_of_lt (Nat.zero_le _) hframe), hjump⟩
  · refine ⟨?_, hframe, hjump⟩
    show s.row_counter + 1 < cfg.rows
    omega

/-- The cursor range invariant is preserved by any number of boundary
crossings. -/
theorem advanceN_range (cfg : TrackCfg) (k : ℕ) (s : TrackState)
    (hrow : s.row_counter < cfg.rows) (hframe : s.frame_counter < cfg.frames)
    (hjump : s.branch = true → s.rowtojump < cfg.rows ∧ s.frametojump < cfg.frames) :
    ((advanceN cfg k s).1).row_counter < cfg.rows ∧
    ((advanceN cfg k s).1).frame_counter < cfg.frames := by
  induction k generalizing s with
  | zero => exact ⟨hrow, hframe⟩
  | succ n ih =>
    rw [advanceN]
    have h := stepOnce_range cfg s hrow hframe hjump
    exact ih (stepOnce cfg s) h.1 h.2.1 h.2.2

/-! ## Channel effect state machine

The header declares nine independent groups of private effect fields in
Channel (volume_slide*, pitch_slide*, portamento*, tremolo*, vibrato*,
panning_slide*, arpeggio*, retrieg*, transpose*/delay*), together with
the dispatch performed inside Track::play and Channel::decode_fx, whose
bodies are absent from the sources.  Following the spec, each of the 9
effect kinds is modelled as a tagged sub-state record carrying its own
parameters and time anchor; an instruction's effect code is a 32-bit
value whose top byte selects the kind and whose low bits carry the
parameters. -/

/-- The nine effect kinds of the Channel effect machine, named after the
field groups of the source header. -/
inductive FxKind
  | volume_slide
  | pitch_slide
  | portamento
  | tremolo
  | vibrato
  | panning_slide
  | arpeggio
  | retrieg
  | transpose
deriving DecidableEq

/-- One effect sub-state: an active flag, the decoded parameter bits and
the sub-state's own elapsed-time anchor (plus the continuous value the
update call maintains). -/
structure FxSub where
  active : Bool := false
  param : ℕ := 0
  anchor : ℚ := 0
  val : ℚ := 0
deriving DecidableEq

/-- The nine concurrent effect sub-states of a Channel. -/
structure EffectStates where
  volume_slide : FxSub := {}
  pitch_slide : FxSub := {}
  portamento : FxSub := {}
  tremolo : FxSub := {}
  vibrato : FxSub := {}
  panning_slide : FxSub := {}
  arpeggio : FxSub := {}
  retrieg : FxSub := {}
  transpose : FxSub := {}
deriving DecidableEq

/-- All nine sub-states inactive: the state after a brand-new note. -/
def EffectStates.inactive : EffectStates := {}

/-- Read the sub-state of one effect kind. -/
def EffectStates.get (es : EffectStates) : FxKind → FxSub
  | .volume_slide => es.volume_slide
  | .pitch_slide => es.pitch_slide
  | .portamento => es.portamento
  | .tremolo => es.tremolo
  | .vibrato => es.vibrato
  | .panning_slide => es.panning_slide
  | .arpeggio => es.arpeggio
  | .retrieg => es.retrieg
  | .transpose => es.transpose

/-- Replace the sub-state of one effect kind. -/
def EffectStates.set (es : EffectStates) (k : FxKind) (v : FxSub) : EffectStates :=
  match k with
  | .volume_slide => { es with volume_slide := v }
  | .pitch_slide => { es with pitch_slide := v }
  | .portamento => { es with portamento := v }
  | .tremolo => { es with tremolo := v }
  | .vibrato => { es with vibrato := v }
  | .panning_slide => { es with panning_slide := v }
  | .arpeggio => { es with arpeggio := v }
  | .retrieg => { es with retrieg := v }
  | .transpose => { es with transpose := v }

theorem EffectStates.get_set_ne (es : EffectStates) (k k' : FxKind) (v : FxSub)
    (h : k ≠ k') : (es.set k' v).get k = es.get k := by
  cases k <;> cases k' <;> first
    | exact absurd rfl h
    | rfl

/-- Modelled from the spec: the kind selector of Channel::decode_fx
(body absent from src) — the top byte of the 32-bit effect code selects
the effect kind; codes outside the table are treated as no-ops. -/
def decodeKind : ℕ → Option FxKind
  | 1 => some .volume_slide
  | 2 => some .pitch_slide
  | 3 => some .portamento
  | 4 => some .tremolo
  | 5 => some .vibrato
  | 6 => some .panning_slide
  | 7 => some .arpeggio
  | 8 => some .retrieg
  | 10 => some .transpose
  | _ => none

/-- Modelled from the spec: Channel::decode_fx (body absent from src).
An effect code present in an instruction initializes the matching
sub-state with the decoded parameter bits and a fresh time anchor;
malformed codes are no-ops. -/
def decode_fx (t : ℚ) (es : EffectStates) (fx : ℕ) : EffectStates :=
  match decodeKind (fx / 2 ^ 24) with
  | some k => es.set k { active := true, param := fx % 2 ^ 24, anchor := t, val := 0 }
  | none => es

/-- The effect kinds referenced by a list of effect codes. -/
def fxKindsOf (l : List ℕ) : List FxKind :=
  l.filterMap (fun fx => decodeKind (fx / 2 ^ 24))

theorem fxKindsOf_cons_none (fx : ℕ) (rest : List ℕ)
    (hdec : decodeKind (fx / 2 ^ 24) = none) :
    fxKindsOf (fx :: rest) = fxKindsOf rest := by
  unfold fxKindsOf
  rw [List.filterMap_cons, hdec]

theorem fxKindsOf_cons_some (fx : ℕ) (rest : List ℕ) (k' : FxKind)
    (hdec : decodeKind (fx / 2 ^ 24) = some k') :
    fxKindsOf (fx :: rest) = k' :: fxKindsOf rest := by
  unfold fxKindsOf
  rw [List.filterMap_cons, hdec]

theorem foldl_decode_fx_get_notin (t : ℚ) (l : List ℕ) (es : EffectStates)
    (k : FxKind) (h : k ∉ fxKindsOf l) :
    (l.foldl (decode_fx t) es).get k = es.get k := by
  induction l generalizing es with
  | nil => rfl
  | cons fx rest ih =>
    rw [List.foldl_cons]
    cases hdec : decodeKind (fx / 2 ^ 24) with
    | none =>
      rw [fxKindsOf_cons_none fx rest hdec] at h
      rw [ih (decode_fx t es fx) h]
      unfold decode_fx
      rw [hdec]
    | some k' =>
      rw [fxKindsOf_cons_some fx rest k' hdec] at h
      have hne : k ≠ k' := fun hc => h (hc ▸ List.mem_cons_self k' (fxKindsOf rest))
      have hrest : k ∉ fxKindsOf rest := fun hc => h (List.mem_cons_of_mem _ hc)
      rw [ih (decode_fx t es fx) hrest]
      unfold decode_fx
      rw [hdec]
      exact EffectStates.get_set_ne es k k' _ hne

/-! ## Channel state and instruction dispatch -/

/-- Instruction structure from the source: instrument index, key
(note, octave), volume and the effect codes.  CONTINUE sentinels (255
for instrument/note/volume, per the spec's sentinel encoding) mean "no
change"; note 244 triggers release. -/
structure Instruction where
  instrument_index : ℕ := 255
  note : ℕ := 255
  octave : ℕ := 255
  volume : ℕ := 255
  effects : List ℕ := []
deriving DecidableEq

/-- Channel per-voice runtime state (fields from the source header;
the nine effect field groups are gathered in fx). -/
structure ChanState where
  number : ℕ := 0
  enable_sound : Bool := true
  time : ℚ := 0
  released : Bool := false
  time_release : ℚ := 0
  cur_instrument : ℕ := 255
  cur_note : ℕ := 255
  cur_octave : ℕ := 255
  cur_volume : ℕ := 255
  panning : ℚ := 1 / 2
  fx : EffectStates := {}
deriving DecidableEq

/-- A brand-new note: the key is neither the CONTINUE sentinel (255) nor
the RELEASE sentinel (244). -/
def Instruction.isNewNote (ins : Instruction) : Bool :=
  ins.note ≠ 255 && ins.note ≠ 244

/-- Modelled from the spec: the per-channel instruction dispatch
performed by Track::play at a row boundary (body absent from src).
A non-CONTINUE instrument index selects a fresh instrument clone; the
RELEASE key triggers the channel's release (recording the release time)
without altering pitch or resetting effects; the CONTINUE key changes
no note; a brand-new note records the key, the note-on time and resets
all nine effect sub-states to inactive; finally every effect code
present in the instruction initializes its matching sub-state. -/
def dispatch (t : ℚ) (cs : ChanState) (ins : Instruction) : ChanState :=
  let cs1 := if ins.instrument_index = 255 then cs
    else { cs with cur_instrument := ins.instrument_index }
  if ins.note = 244 then
    { cs1 with released := true, time_release := t }
  else if ins.note = 255 then
    let cs2 := if ins.volume = 255 then cs1 else { cs1 with cur_volume := ins.volume }
    { cs2 with fx := ins.effects.foldl (decode_fx t) cs2.fx }
  else
    let cs2 := { cs1 with cur_note := ins.note
                          cur_octave := ins.octave
                          released := false
                          time := t
                          fx := EffectStates.inactive }
    let cs3 := if ins.volume = 255 then cs2 else { cs2 with cur_volume := ins.volume }
    { cs3 with fx := ins.effects.foldl (decode_fx t) cs3.fx }

/-! ## Per-channel synthesis and stereo mixing -/

/-- Modelled from the spec: Channel::update_fx (body absent from src) —
every call advances each active sub-state's continuous value from its
own anchor. -/
def FxSub.advance (t : ℚ) (s : FxSub) : FxSub :=
  if s.active then { s with val := (t - s.anchor) * (s.param : ℚ) } else s

/-- Advance all nine sub-states. -/
def EffectStates.advance (t : ℚ) (es : EffectStates) : EffectStates where
  volume_slide := es.volume_slide.advance t
  pitch_slide := es.pitch_slide.advance t
  portamento := es.portamento.advance t
  tremolo := es.tremolo.advance t
  vibrato := es.vibrato.advance t
  panning_slide := es.panning_slide.advance t
  arpeggio := es.arpeggio.advance t
  retrieg := es.retrieg.advance t
  transpose := es.transpose.advance t

/-- Modelled from the spec: a channel's update_fx step. -/
def update_fx (t : ℚ) (cs : ChanState) : ChanState :=
  { cs with fx := cs.fx.advance t }

/-- Modelled from the spec: the sample a channel's current instrument
produces at time t — the ADSR envelope at the effect-adjusted amplitude
(nothing sounds before any note was set). -/
def chanSample (e : ADSR) (t : ℚ) (cs : ChanState) : ℚ :=
  if cs.cur_note = 255 then 0
  else handleAmpEnvelope e cs.released (t - cs.time) (cs.time_release - cs.time)
    * ((cs.cur_volume : ℚ) / 255) * (1 + cs.fx.volume_slide.val)

/-- The channel's stereo position after the panning-slide effect. -/
def chanPanning (cs : ChanState) : ℚ :=
  cs.panning + cs.fx.panning_slide.val

/-- Modelled from the spec: the per-channel portion of Track::play
(body absent from src).  A disabled channel is skipped entirely: no
instruction dispatch, no effect advance, no mix contribution.  An
enabled channel is dispatched to at a row boundary, has its active
effect sub-states advanced, and contributes its panned sample. -/
def playChannel (e : ADSR) (boundary : Bool) (ins : Instruction) (t : ℚ)
    (cs : ChanState) : ChanState × (ℚ × ℚ) :=
  if cs.enable_sound then
    let cs1 := if boundary then dispatch t cs ins else cs
    let cs2 := update_fx t cs1
    let sample := chanSample e t cs2
    (cs2, (sample * (1 - chanPanning cs2), sample * chanPanning cs2))
  else (cs, (0, 0))

/-- Modelled from the spec: the mixing loop of Track::play (body absent
from src).  Every channel is processed in order against its fetched
instruction; the stereo contributions accumulate and are scaled by the
track's global volume. -/
def mixChannels (e : ADSR) (boundary : Bool) (t : ℚ) (volume : ℚ)
    (entries : List (Instruction × ChanState)) : List ChanState × (ℚ × ℚ) :=
  let rs := entries.map (fun pr => playChannel e boundary pr.1 t pr.2)
  (rs.map Prod.fst,
   (volume * (rs.map (fun r => r.2.1)).sum, volume * (rs.map (fun r => r.2.2)).sum))

/-! ## Track construction validation

The header declares the Track constructor taking the clock, tempo
parameters, the instrument bank with its size, the pattern table and the
channels × frames pattern-index matrix; its body is absent from the
sources, so the configuration validation required by the spec's error
handling design is modelled from the spec. -/

/-- Pattern structure from the source: a row count, a max-effect-slot
count and the instructions. -/
structure Pattern where
  rows : ℕ
  n_fx : ℕ
  instructions : List Instruction
deriving DecidableEq

/-- Track construction input (the source constructor's parameters). -/
structure TrackInput where
  clk : ℚ
  basetime : ℚ
  speed : ℚ
  rows : ℕ
  frames : ℕ
  channels : ℕ
  numb_of_instruments : ℕ
  track_patterns : List Pattern
  pattern_indices : List (List ℕ)
deriving DecidableEq

/-- Every non-CONTINUE instrument index used by a pattern lies inside
the instrument bank. -/
def instrumentsInRange (inp : TrackInput) : Bool :=
  inp.track_patterns.all fun p =>
    p.instructions.all fun ins =>
      ins.instrument_index = 255 || decide (ins.instrument_index < inp.numb_of_instruments)

/-- The pattern-index matrix has exactly channels rows of exactly
frames entries. -/
def indexMatrixDimsOk (inp : TrackInput) : Bool :=
  decide (inp.pattern_indices.length = inp.channels) &&
    inp.pattern_indices.all fun r => decide (r.length = inp.frames)

/-- Every referenced pattern exists and carries the Track's row count
(row counts referenced by one Track are mutually consistent). -/
def patternRowsConsistent (inp : TrackInput) : Bool :=
  inp.pattern_indices.all fun r =>
    r.all fun i =>
      match inp.track_patterns[i]? with
      | some p => decide (p.rows = inp.rows)
      | none => false

/-- Modelled from the spec: the validating Track constructor (body
absent from src).  Configuration errors are detected at construction and
reported as a construction failure instead of reaching playback. -/
def Track.construct (inp : TrackInput) : Except String TrackInput :=
  if instrumentsInRange inp = false then
    Except.error "instrument index out of bank range"
  else if indexMatrixDimsOk inp = false then
    Except.error "pattern index matrix dimensions mismatch"
  else if patternRowsConsistent inp = false then
    Except.error "inconsistent pattern row counts"
  else Except.ok inp

/-! ## Channel numbering

The header declares
  static uint_fast8_t chancount;
and the default constructor Channel() whose documentation says each
created channel has its own number; the body is absent from the
sources.  Modelled from the spec and the declaration: the k-th default
construction (k counted from 0, process-wide) reads the counter and
increments it; uint_fast8_t arithmetic is at least 8 bits wide (and is
exactly 8 bits on the desktop platforms the repository targets), so the
stored number is reduced modulo 2^8. -/

/-- The number received by the channel created by the k-th default
construction (0-based), i.e. the value of chancount it reads. -/
def channelNumber (k : ℕ) : ℕ := k % 2 ^ 8

/-- Channel::getNumber returns the stored number. -/
def getNumber (cs : ChanState) : ℕ := cs.number

end CodeTracker

/-! ## Claim theorems -/



/-- C3. For every oscillator voice (well-formed ADSR: positive attack and
release, sustain level in [0,1], non-negative decay), the envelope
amplitude present at the instant the release is triggered is captured in
current_envelope_amplitude and is the start of a ramp down to 0 over the
release duration measured from the release time rt; sampling the
amplitude immediately before (unreleased, at rt) and immediately after
(released, at rt + d for small d) the trigger differs by at most ε; and
once the release duration has elapsed the output is exactly 0. -/
theorem c3_envelope_release_continuity (e : CodeTracker.ADSR) (rt : ℚ)
    (hA : 0 < e.attack) (hD : 0 ≤ e.decay)
    (hS0 : 0 ≤ e.sustain) (hS1 : e.sustain ≤ 1)
    (hR : 0 < e.release) (hrt : 0 ≤ rt) :
    CodeTracker.envAfterRelease e rt rt
        = CodeTracker.current_envelope_amplitude e rt ∧
    (∀ d : ℚ, 0 ≤ d → d < e.release →
      CodeTracker.envAfterRelease e rt (rt + d)
        = CodeTracker.current_envelope_amplitude e rt * (1 - d / e.release)) ∧
    (∀ ε : ℚ, 0 < ε → ∀ d : ℚ, 0 ≤ d → d ≤ ε * e.release →
      |CodeTracker.handleAmpEnvelope e true (rt + d) rt
        - CodeTracker.handleAmpEnvelope e false rt rt| ≤ ε) ∧
    (∀ t : ℚ, rt + e.release ≤ t →
      CodeTracker.handleAmpEnvelope e true t rt = 0) := by
  have hbounds := CodeTracker.envBefore_mem_Icc e rt hA hS0 hS1 hrt
  refine ⟨?_, ?_, ?_, ?_⟩
  · unfold CodeTracker.envAfterRelease
    rw [if_pos (by linarith)]
    simp [CodeTracker.current_envelope_amplitude]
  · intro d hd0 hdR
    unfold CodeTracker.envAfterRelease
    rw [if_pos (by linarith)]
    ring_nf
  · intro ε hε d hd0 hdε
    unfold CodeTracker.handleAmpEnvelope CodeTracker.envAfterRelease
    simp only [if_true, Bool.false_eq_true, if_false]
    by_cases hcase : rt + d - rt < e.release
    · rw [if_pos hcase]
      have hsimp : CodeTracker.current_envelope_amplitude e rt
            * (1 - (rt + d - rt) / e.release) - CodeTracker.envBefore e rt
          = -(CodeTracker.envBefore e rt * (d / e.release)) := by
        unfold CodeTracker.current_envelope_amplitude
        ring_nf
      rw [hsimp, abs_neg,
        abs_of_nonneg (mul_nonneg hbounds.1 (by positivity))]
      have h1 : CodeTracker.envBefore e rt * (d / e.release) ≤ 1 * (d / e.release) := by
        apply mul_le_mul_of_nonneg_right hbounds.2 (by positivity)
      have h2 : d / e.release ≤ ε := by
        rw [div_le_iff₀ hR]
        linarith
      linarith
    · rw [if_neg hcase]
      push_neg at hcase
      have hε1 : 1 ≤ ε := by
        have : e.release ≤ ε * e.release := by linarith
        nlinarith
      rw [zero_sub, abs_neg, abs_of_nonneg hbounds.1]
      linarith
  · intro t ht
    unfold CodeTracker.handleAmpEnvelope CodeTracker.envAfterRelease
    rw [if_pos rfl, if_neg (by push_neg; linarith)]

/-- C3 witness: the theorem instantiated at ADSR(1, 1, 1/2, 2) with the
release triggered at rt = 3. -/
theorem c3_envelope_release_continuity_witness :
    CodeTracker.envAfterRelease ⟨1, 1, 1/2, 2⟩ 3 3
        = CodeTracker.current_envelope_amplitude ⟨1, 1, 1/2, 2⟩ 3 ∧
    (∀ d : ℚ, 0 ≤ d → d < (2 : ℚ) →
      CodeTracker.envAfterRelease ⟨1, 1, 1/2, 2⟩ 3 (3 + d)
        = CodeTracker.current_envelope_amplitude ⟨1, 1, 1/2, 2⟩ 3 * (1 - d / 2)) ∧
    (∀ ε : ℚ, 0 < ε → ∀ d : ℚ, 0 ≤ d → d ≤ ε * 2 →
      |CodeTracker.handleAmpEnvelope ⟨1, 1, 1/2, 2⟩ true (3 + d) 3
        - CodeTracker.handleAmpEnvelope ⟨1, 1, 1/2, 2⟩ false 3 3| ≤ ε) ∧
    (∀ t : ℚ, (3 : ℚ) + 2 ≤ t →
      CodeTracker.handleAmpEnvelope ⟨1, 1, 1/2, 2⟩ true t 3 = 0) :=
  c3_envelope_release_continuity ⟨1, 1, 1/2, 2⟩ 3
    (by norm_num) (by norm_num) (by norm_num) (by norm_num) (by norm_num)
    (by norm_num)

/-! ## Claim theorems: C6 and C8 -/

/-- C6. The claim states that the sentinel RELEASE equals 244 and the
sentinel CONTINUE equals 255.  In the source enumeration CONTINUE has no
initializer and directly follows RELEASE = 244, so its value is 245, not
the 255 announced by the header's own documentation comments ("CONTINUE,
with 255 as value") and by the spec.  This theorem evaluates the embedded
enumeration at the failing enumerator: RELEASE is indeed 244, but
CONTINUE is 245 and in particular differs from 255. -/
theorem c6_continue_enumerator_is_245 :
    CodeTracker.Notes.RELEASE = 244 ∧
    CodeTracker.Notes.CONTINUE = 245 ∧
    CodeTracker.Notes.CONTINUE ≠ 255 := by
  refine ⟨rfl, rfl, ?_⟩
  decide

/-- C8. The pitch model satisfies
key2pitch(note, octave) = (octave - 4) * 12 + (note - 9) for every
non-sentinel note (≤ 11) and octave (≤ 8), pitch2freq(p) = 440 * 2^(p/12),
and in particular pitch2freq 0 = 440, pitch2freq 12 = 880 and
key2pitch of (A, 4) = 0. -/
theorem c8_pitch_model (note octave : ℚ)
    (hnote : note ≤ 11) (hoct : octave ≤ 8) :
    CodeTracker.Notes.key2pitch note octave
        = (octave - 4) * 12 + (note - 9) ∧
    (∀ p : ℚ, CodeTracker.Notes.pitch2freq p = 440 * (2 : ℝ) ^ ((p : ℝ) / 12)) ∧
    CodeTracker.Notes.pitch2freq 0 = 440 ∧
    CodeTracker.Notes.pitch2freq 12 = 880 ∧
    CodeTracker.Notes.key2pitch (CodeTracker.Notes.A : ℚ) 4 = 0 := by
  refine ⟨?_, fun p => rfl, ?_, ?_, ?_⟩
  · norm_num [CodeTracker.Notes.key2pitch, CodeTracker.Notes.OCTAVE_PITCH_OFFSET,
      CodeTracker.Notes.PITCHES_PER_OCTAVE, CodeTracker.Notes.NOTE_PITCH_OFFSET,
      CodeTracker.Notes.A, CodeTracker.Notes.G_S, CodeTracker.Notes.G,
      CodeTracker.Notes.F_S, CodeTracker.Notes.F, CodeTracker.Notes.E,
      CodeTracker.Notes.D_S, CodeTracker.Notes.D, CodeTracker.Notes.C_S,
      CodeTracker.Notes.C, CodeTracker.Notes.B, CodeTracker.Notes.A_S]
  · have h0 : (((0 : ℚ) : ℝ) / 12) = (0 : ℝ) := by norm_num
    rw [CodeTracker.Notes.pitch2freq, h0, Real.rpow_zero]
    norm_num
  · have h1 : (((12 : ℚ) : ℝ) / 12) = (1 : ℝ) := by norm_num
    rw [CodeTracker.Notes.pitch2freq, h1, Real.rpow_one]
    norm_num
  · norm_num [CodeTracker.Notes.key2pitch, CodeTracker.Notes.OCTAVE_PITCH_OFFSET,
      CodeTracker.Notes.PITCHES_PER_OCTAVE, CodeTracker.Notes.NOTE_PITCH_OFFSET,
      CodeTracker.Notes.A, CodeTracker.Notes.G_S, CodeTracker.Notes.G,
      CodeTracker.Notes.F_S, CodeTracker.Notes.F, CodeTracker.Notes.E,
      CodeTracker.Notes.D_S, CodeTracker.Notes.D, CodeTracker.Notes.C_S,
      CodeTracker.Notes.C, CodeTracker.Notes.B, CodeTracker.Notes.A_S]

/-- C8 witness: the theorem instantiated at the reference key (A, 4). -/
theorem c8_pitch_model_witness :
    CodeTracker.Notes.key2pitch (CodeTracker.Notes.A : ℚ) 4
        = ((4 : ℚ) - 4) * 12 + ((CodeTracker.Notes.A : ℚ) - 9) ∧
    (∀ p : ℚ, CodeTracker.Notes.pitch2freq p = 440 * (2 : ℝ) ^ ((p : ℝ) / 12)) ∧
    CodeTracker.Notes.pitch2freq 0 = 440 ∧
    CodeTracker.Notes.pitch2freq 12 = 880 ∧
    CodeTracker.Notes.key2pitch (CodeTracker.Notes.A : ℚ) 4 = 0 :=
  c8_pitch_model (CodeTracker.Notes.A : ℚ) 4
    (by norm_num [CodeTracker.Notes.A, CodeTracker.Notes.G_S, CodeTracker.Notes.G,
      CodeTracker.Notes.F_S, CodeTracker.Notes.F, CodeTracker.Notes.E,
      CodeTracker.Notes.D_S, CodeTracker.Notes.D, CodeTracker.Notes.C_S,
      CodeTracker.Notes.C])
    (by norm_num)

/-! ## Claim theorems: the Track sequencer -/

/-- C1. Absent branch effects (and stop effects), the sequencer cursor
reached at a time t is independent of call granularity: driving
Track::play through any monotone sequence of intermediate call times
ending at t yields exactly the same cursor state — in particular the
same (frame, row) — and concatenates to exactly the same list of
dispatched (frame, row) instruction positions as one single call with t
jumped directly.  The 10-unit-step versus single-jump scenario is the
instance with ts the 10 multiples of step. -/
theorem c1_call_granularity_independence (cfg : CodeTracker.TrackCfg)
    (hstep : 0 < cfg.step) (s : CodeTracker.TrackState)
    (hstop : s.stop = false) (hbranch : s.branch = false)
    (ts : List ℚ) (t : ℚ)
    (hsorted : List.Sorted (· ≤ ·) (ts ++ [t])) :
    CodeTracker.runCalls cfg s (ts ++ [t]) = CodeTracker.play cfg s t := by
  induction ts generalizing s with
  | nil =>
    show CodeTracker.runCalls cfg s [t] = CodeTracker.play cfg s t
    unfold CodeTracker.runCalls
    simp [CodeTracker.runCalls]
  | cons a ts ih =>
    rw [List.cons_append] at hsorted ⊢
    have hs := List.sorted_cons.mp hsorted
    have hat : a ≤ t := hs.1 t (by simp)
    have h1 : ((CodeTracker.play cfg s a).1).stop = false := by
      rw [CodeTracker.play_stop]; exact hstop
    have h2 : ((CodeTracker.play cfg s a).1).branch = false :=
      CodeTracker.play_branch_false cfg s a hbranch
    have hIH := ih (CodeTracker.play cfg s a).1 h1 h2 hs.2
    have hstep1 : CodeTracker.runCalls cfg s (a :: (ts ++ [t]))
        = ((CodeTracker.runCalls cfg (CodeTracker.play cfg s a).1 (ts ++ [t])).1,
           (CodeTracker.play cfg s a).2
             ++ (CodeTracker.runCalls cfg (CodeTracker.play cfg s a).1 (ts ++ [t])).2) := rfl
    rw [hstep1, hIH]
    have hcomp := CodeTracker.play_comp cfg s a t hstep hstop hat
    exact Prod.ext hcomp.1 hcomp.2

/-- C1 witness: the spec's scenario cfg (clock 60, basetime 2, speed 3,
so step = 1/10) driven from the initial cursor to t = 10 * step = 1 via
ten unit-step calls versus one direct call. -/
theorem c1_call_granularity_independence_witness :
    CodeTracker.runCalls ⟨60, 2, 3, 4, 2⟩ ⟨0, 0, 0, false, 0, 0, false⟩
        ([1/10, 2/10, 3/10, 4/10, 5/10, 6/10, 7/10, 8/10, 9/10] ++ [1])
      = CodeTracker.play ⟨60, 2, 3, 4, 2⟩ ⟨0, 0, 0, false, 0, 0, false⟩ 1 :=
  c1_call_granularity_independence ⟨60, 2, 3, 4, 2⟩
    (by norm_num [CodeTracker.TrackCfg.step]) ⟨0, 0, 0, false, 0, 0, false⟩
    rfl rfl [1/10, 2/10, 3/10, 4/10, 5/10, 6/10, 7/10, 8/10, 9/10] 1
    (by norm_num [List.Sorted])

/-- C2. With row duration step = speed * basetime / clk: when the
supplied time t reaches time_advance + step (and before the following
boundary) the cursor advances one row — the row increments, and when it
reaches the row count it wraps to 0 carrying the frame to
(frame + 1) mod frames; a single Track::play call processes every
crossed row boundary (its dispatch list has exactly one entry per
crossing, however many boundaries t jumped over); and for every t the
resulting cursor satisfies frame < frames and row < rows. -/
theorem c2_row_advance_and_bounds (cfg : CodeTracker.TrackCfg)
    (s : CodeTracker.TrackState) (hstep : 0 < cfg.step)
    (hstop : s.stop = false) (hbranch : s.branch = false)
    (hrow : s.row_counter < cfg.rows) (hframe : s.frame_counter < cfg.frames) :
    cfg.step = cfg.speed * cfg.basetime / cfg.clk ∧
    (∀ t : ℚ, s.time_advance + cfg.step ≤ t → t < s.time_advance + 2 * cfg.step →
      ((CodeTracker.play cfg s t).1).row_counter
          = (if s.row_counter + 1 = cfg.rows then 0 else s.row_counter + 1) ∧
      ((CodeTracker.play cfg s t).1).frame_counter
          = (if s.row_counter + 1 = cfg.rows
             then (s.frame_counter + 1) % cfg.frames else s.frame_counter)) ∧
    (∀ t : ℚ, ((CodeTracker.play cfg s t).2).length = CodeTracker.crossings cfg s t) ∧
    (∀ t : ℚ, ((CodeTracker.play cfg s t).1).row_counter < cfg.rows ∧
      ((CodeTracker.play cfg s t).1).frame_counter < cfg.frames) := by
  refine ⟨rfl, ?_, ?_, ?_⟩
  · intro t h1 h2
    unfold CodeTracker.play
    rw [CodeTracker.crossings_eq_one cfg s t hstep hstop h1 h2]
    show ((CodeTracker.stepOnce cfg s).row_counter = _) ∧
      ((CodeTracker.stepOnce cfg s).frame_counter = _)
    unfold CodeTracker.stepOnce
    rw [hstop, hbranch]
    simp only [Bool.false_eq_true, if_false]
    split_ifs with hw
    · exact ⟨rfl, rfl⟩
    · exact ⟨rfl, rfl⟩
  · intro t
    exact CodeTracker.advanceN_length cfg _ s
  · intro t
    exact CodeTracker.advanceN_range cfg _ s hrow hframe
      (fun hb => absurd (hbranch ▸ hb) (by simp))

/-- C2 witness: the spec's scenario cfg (step = 1/10, 4 rows, 2 frames)
from the initial cursor. -/
theorem c2_row_advance_and_bounds_witness :
    (CodeTracker.TrackCfg.step ⟨60, 2, 3, 4, 2⟩
        = (3 : ℚ) * 2 / 60 ∧
    (∀ t : ℚ, (0 : ℚ) + CodeTracker.TrackCfg.step ⟨60, 2, 3, 4, 2⟩ ≤ t →
      t < (0 : ℚ) + 2 * CodeTracker.TrackCfg.step ⟨60, 2, 3, 4, 2⟩ →
      ((CodeTracker.play ⟨60, 2, 3, 4, 2⟩ ⟨0, 0, 0, false, 0, 0, false⟩ t).1).row_counter
          = (if 0 + 1 = 4 then 0 else 0 + 1) ∧
      ((CodeTracker.play ⟨60, 2, 3, 4, 2⟩ ⟨0, 0, 0, false, 0, 0, false⟩ t).1).frame_counter
          = (if 0 + 1 = 4 then (0 + 1) % 2 else 0)) ∧
    (∀ t : ℚ, ((CodeTracker.play ⟨60, 2, 3, 4, 2⟩ ⟨0, 0, 0, false, 0, 0, false⟩ t).2).length
        = CodeTracker.crossings ⟨60, 2, 3, 4, 2⟩ ⟨0, 0, 0, false, 0, 0, false⟩ t) ∧
    (∀ t : ℚ, ((CodeTracker.play ⟨60, 2, 3, 4, 2⟩ ⟨0, 0, 0, false, 0, 0, false⟩ t).1).row_counter < 4 ∧
      ((CodeTracker.play ⟨60, 2, 3, 4, 2⟩ ⟨0, 0, 0, false, 0, 0, false⟩ t).1).frame_counter < 2)) :=
  c2_row_advance_and_bounds ⟨60, 2, 3, 4, 2⟩ ⟨0, 0, 0, false, 0, 0, false⟩
    (by norm_num [CodeTracker.TrackCfg.step]) rfl rfl (by norm_num) (by norm_num)

/-- C4. When an instruction carried a branch effect with target
(frametojump, rowtojump) — so the pending branch flag is set — the
cursor at the next row boundary is set to exactly that target instead of
incrementing normally, and the pending flag clears; the single
dispatched position of that call is the target itself.  A
branch-to-(frame 0, row 2) effect thus sets the cursor to (0, 2). -/
theorem c4_branch_target_consumed (cfg : CodeTracker.TrackCfg)
    (s : CodeTracker.TrackState) (t : ℚ) (hstep : 0 < cfg.step)
    (hstop : s.stop = false) (hbranch : s.branch = true)
    (h1 : s.time_advance + cfg.step ≤ t)
    (h2 : t < s.time_advance + 2 * cfg.step) :
    ((CodeTracker.play cfg s t).1).frame_counter = s.frametojump ∧
    ((CodeTracker.play cfg s t).1).row_counter = s.rowtojump ∧
    ((CodeTracker.play cfg s t).1).branch = false ∧
    (CodeTracker.play cfg s t).2 = [(s.frametojump, s.rowtojump)] := by
  unfold CodeTracker.play
  rw [CodeTracker.crossings_eq_one cfg s t hstep hstop h1 h2]
  show ((CodeTracker.stepOnce cfg s).frame_counter = _) ∧
    ((CodeTracker.stepOnce cfg s).row_counter = _) ∧
    ((CodeTracker.stepOnce cfg s).branch = false) ∧
    ([((CodeTracker.stepOnce cfg s).frame_counter,
       (CodeTracker.stepOnce cfg s).row_counter)] = _)
  unfold CodeTracker.stepOnce
  rw [hstop, hbranch]
  simp

/-- C4 witness: a pending branch to (frame 0, row 2) with step 1/10,
consumed at the boundary t = 1/10. -/
theorem c4_branch_target_consumed_witness :
    ((CodeTracker.play ⟨60, 2, 3, 4, 2⟩ ⟨3, 1, 0, true, 0, 2, false⟩ (1/10)).1).frame_counter = 0 ∧
    ((CodeTracker.play ⟨60, 2, 3, 4, 2⟩ ⟨3, 1, 0, true, 0, 2, false⟩ (1/10)).1).row_counter = 2 ∧
    ((CodeTracker.play ⟨60, 2, 3, 4, 2⟩ ⟨3, 1, 0, true, 0, 2, false⟩ (1/10)).1).branch = false ∧
    (CodeTracker.play ⟨60, 2, 3, 4, 2⟩ ⟨3, 1, 0, true, 0, 2, false⟩ (1/10)).2 = [(0, 2)] :=
  c4_branch_target_consumed ⟨60, 2, 3, 4, 2⟩ ⟨3, 1, 0, true, 0, 2, false⟩ (1/10)
    (by norm_num [CodeTracker.TrackCfg.step]) rfl rfl
    (by norm_num [CodeTracker.TrackCfg.step])
    (by norm_num [CodeTracker.TrackCfg.step])

/-! ## Claim theorems: the Channel effect machine and mixing -/

/-- C5. The nine effect sub-states of a Channel are fully reset to
inactive exactly when an instruction carrying a brand-new note (a key
that is neither the CONTINUE sentinel nor the RELEASE sentinel) is
dispatched, and otherwise persist unchanged: for an instruction without
a brand-new note, every effect kind whose code is absent from the
instruction keeps its existing runtime sub-state untouched. -/
theorem c5_effect_substates_reset_on_new_note (t : ℚ)
    (cs : CodeTracker.ChanState) (ins : CodeTracker.Instruction) :
    (ins.isNewNote = true → ins.effects = [] →
      (CodeTracker.dispatch t cs ins).fx = CodeTracker.EffectStates.inactive) ∧
    (ins.isNewNote = false → ∀ k : CodeTracker.FxKind,
      k ∉ CodeTracker.fxKindsOf ins.effects →
      ((CodeTracker.dispatch t cs ins).fx).get k = cs.fx.get k) := by
  constructor
  · intro hnew heff
    have hb := hnew
    unfold CodeTracker.Instruction.isNewNote at hb
    rw [Bool.and_eq_true, decide_eq_true_iff, decide_eq_true_iff] at hb
    unfold CodeTracker.dispatch
    rw [if_neg hb.2, if_neg hb.1, heff]
    split_ifs <;> rfl
  · intro hold k hk
    have hb := hold
    unfold CodeTracker.Instruction.isNewNote at hb
    rw [Bool.and_eq_false_iff] at hb
    unfold CodeTracker.dispatch
    by_cases h244 : ins.note = 244
    · rw [if_pos h244]
      split_ifs <;> rfl
    · have h255 : ins.note = 255 := by
        rcases hb with hb | hb
        · rw [decide_eq_false_iff_not, not_not] at hb
          exact hb
        · rw [decide_eq_false_iff_not, not_not] at hb
          exact absurd hb h244
      rw [if_neg h244, if_pos h255]
      split_ifs <;>
        exact CodeTracker.foldl_decode_fx_get_notin t ins.effects cs.fx k hk

/-- C5 witness: a brand-new note with no effect codes resets an active
vibrato sub-state to inactive, while a CONTINUE instruction carrying
only a volume-slide code (top byte 1) leaves the vibrato sub-state
untouched. -/
theorem c5_effect_substates_reset_on_new_note_witness :
    (CodeTracker.dispatch 7
        ⟨0, true, 0, false, 0, 255, 255, 255, 255, 1/2,
          { vibrato := ⟨true, 9, 2, 0⟩ }⟩
        ⟨0, 9, 4, 200, []⟩).fx = CodeTracker.EffectStates.inactive ∧
    ((CodeTracker.dispatch 7
        ⟨0, true, 0, false, 0, 255, 255, 255, 255, 1/2,
          { vibrato := ⟨true, 9, 2, 0⟩ }⟩
        ⟨255, 255, 255, 255, [1 * 2 ^ 24 + 5]⟩).fx).get .vibrato
      = CodeTracker.EffectStates.get
          { vibrato := ⟨true, 9, 2, 0⟩ } .vibrato :=
  ⟨(c5_effect_substates_reset_on_new_note 7
      ⟨0, true, 0, false, 0, 255, 255, 255, 255, 1/2,
        { vibrato := ⟨true, 9, 2, 0⟩ }⟩
      ⟨0, 9, 4, 200, []⟩).1 (by decide) rfl,
   (c5_effect_substates_reset_on_new_note 7
      ⟨0, true, 0, false, 0, 255, 255, 255, 255, 1/2,
        { vibrato := ⟨true, 9, 2, 0⟩ }⟩
      ⟨255, 255, 255, 255, [1 * 2 ^ 24 + 5]⟩).2 (by decide) .vibrato
      (by decide)⟩

/-- C7. A disabled channel is skipped entirely by Track::play: whatever
instruction its pattern holds, the channel receives no dispatch and no
effect advance (its whole state is returned unchanged), its contribution
is exactly (0, 0), and the mixed stereo frame of the whole channel array
is exactly the frame mixed without that channel. -/
theorem c7_disabled_channel_silent (e : CodeTracker.ADSR) (boundary : Bool)
    (t vol : ℚ) (cs : CodeTracker.ChanState)
    (h : cs.enable_sound = false) :
    (∀ ins : CodeTracker.Instruction,
      CodeTracker.playChannel e boundary ins t cs = (cs, (0, 0))) ∧
    (∀ (ins : CodeTracker.Instruction)
       (pre post : List (CodeTracker.Instruction × CodeTracker.ChanState)),
      (CodeTracker.mixChannels e boundary t vol (pre ++ (ins, cs) :: post)).2
        = (CodeTracker.mixChannels e boundary t vol (pre ++ post)).2) := by
  have hskip : ∀ ins : CodeTracker.Instruction,
      CodeTracker.playChannel e boundary ins t cs = (cs, (0, 0)) := by
    intro ins
    unfold CodeTracker.playChannel
    rw [h]
    simp
  refine ⟨hskip, ?_⟩
  intro ins pre post
  unfold CodeTracker.mixChannels
  simp [hskip]

/-- C7 witness: a freshly default-initialized but disabled channel,
mixed between two empty channel lists against an arbitrary loud
instruction. -/
theorem c7_disabled_channel_silent_witness :
    (∀ ins : CodeTracker.Instruction,
      CodeTracker.playChannel ⟨100, 0, 1, 1⟩ true ins 5
          ⟨0, false, 0, false, 0, 255, 9, 4, 200, 1/2, {}⟩
        = (⟨0, false, 0, false, 0, 255, 9, 4, 200, 1/2, {}⟩, (0, 0))) ∧
    (∀ (ins : CodeTracker.Instruction)
       (pre post : List (CodeTracker.Instruction × CodeTracker.ChanState)),
      (CodeTracker.mixChannels ⟨100, 0, 1, 1⟩ true 5 1
          (pre ++ (ins, ⟨0, false, 0, false, 0, 255, 9, 4, 200, 1/2, {}⟩) :: post)).2
        = (CodeTracker.mixChannels ⟨100, 0, 1, 1⟩ true 5 1 (pre ++ post)).2) :=
  c7_disabled_channel_silent ⟨100, 0, 1, 1⟩ true 5 1
    ⟨0, false, 0, false, 0, 255, 9, 4, 200, 1/2, {}⟩ rfl

/-! ## Claim theorems: construction validation and channel numbering -/

/-- C9. For every construction input with an instrument index out of
bank range, a pattern-index matrix whose dimensions do not match the
channel and frame counts, or inconsistent row counts across the patterns
referenced by the Track, the validating constructor reports a
construction failure (an error) instead of producing a Track. -/
theorem c9_constructor_rejects_bad_config (inp : CodeTracker.TrackInput)
    (h : CodeTracker.instrumentsInRange inp = false ∨
         CodeTracker.indexMatrixDimsOk inp = false ∨
         CodeTracker.patternRowsConsistent inp = false) :
    ∃ msg, CodeTracker.Track.construct inp = Except.error msg := by
  unfold CodeTracker.Track.construct
  by_cases h1 : CodeTracker.instrumentsInRange inp = false
  · rw [if_pos h1]
    exact ⟨_, rfl⟩
  · rw [if_neg h1]
    by_cases h2 : CodeTracker.indexMatrixDimsOk inp = false
    · rw [if_pos h2]
      exact ⟨_, rfl⟩
    · rw [if_neg h2]
      have h3 : CodeTracker.patternRowsConsistent inp = false := by
        rcases h with h | h | h
        · exact absurd h h1
        · exact absurd h h2
        · exact h
      rw [if_pos h3]
      exact ⟨_, rfl⟩

/-- C9 witness: a track input announcing 1 channel and 1 frame but
supplying an empty pattern-index matrix is rejected. -/
theorem c9_constructor_rejects_bad_config_witness :
    ∃ msg, CodeTracker.Track.construct ⟨60, 2, 3, 4, 1, 1, 0, [], []⟩
      = Except.error msg :=
  c9_constructor_rejects_bad_config ⟨60, 2, 3, 4, 1, 1, 0, [], []⟩
    (Or.inr (Or.inl (by decide)))

/-- C10 counterexample. The claim asserts that for every k the k-th
default-constructed channel receives number k - 1 and all numbers are
distinct; the counter is the source-declared uint_fast8_t (8 bits on the
targeted desktop ABIs), so the 257-th construction (0-based index 256)
wraps: it receives number 0, not 256, colliding with the first
channel. -/
theorem c10_chancount_wraps_at_257 :
    CodeTracker.channelNumber 256 = 0 ∧
    CodeTracker.channelNumber 0 = 0 ∧
    CodeTracker.channelNumber 256 ≠ 256 := by
  refine ⟨rfl, rfl, ?_⟩
  decide

/-- C10 (amended). For every sequence of k ≤ 2^8 default constructions,
the channels receive distinct, sequentially increasing numbers, and the
k-th such channel (0-based index i = k - 1) receives number i; beyond
2^8 constructions the uint_fast8_t counter wraps modulo 2^8. -/
theorem c10_sequential_numbers_within_width (k : ℕ) (hk : k ≤ 2 ^ 8) :
    (∀ i, i < k → CodeTracker.channelNumber i = i) ∧
    (∀ i j, i < j → j < k →
      CodeTracker.channelNumber i < CodeTracker.channelNumber j) := by
  constructor
  · intro i hi
    unfold CodeTracker.channelNumber
    exact Nat.mod_eq_of_lt (by omega)
  · intro i j hij hj
    unfold CodeTracker.channelNumber
    rw [Nat.mod_eq_of_lt (by omega), Nat.mod_eq_of_lt (by omega)]
    exact hij

/-- C10 witness: the amended statement at the full width k = 256. -/
theorem c10_sequential_numbers_within_width_witness :
    (∀ i, i < 256 → CodeTracker.channelNumber i = i) ∧
    (∀ i j, i < j → j < 256 →
      CodeTracker.channelNumber i < CodeTracker.channelNumber j) :=
  c10_sequential_numbers_within_width 256 (by norm_num)
